import Mathlib

/-!
Verification of the Buster protocol core against its implementation.

The Python sources are embedded shallowly:
* Python integers are `Int`/`Nat` (arbitrary precision, as in CPython);
* Python `%` on integers is floored modulo (`Int.fmod`), raising
  `ZeroDivisionError` on a zero divisor, modelled by `Option`;
* functions that can raise model the exception as `Option.none` or
  `Except.error`;
* the SHA-256 hash from `hashlib` is a black box: every theorem about the
  seed store quantifies over the hash function `H`, since none of the
  store's properties depend on the concrete digest.
-/

/-- Python's `a % b` on integers: floored modulo, `ZeroDivisionError` on `b = 0`. -/
def pyMod (a b : Int) : Option Int :=
  if b = 0 then none else some (Int.fmod a b)

/-- `demo/game.py` / `demo/verify.py` `calculate_outcome`:
`range_size = max_val - min_val + 1; outcome = (drand_value % range_size) + min_val`. -/
def calculate_outcome (drand_value min_val max_val : Int) : Option Int :=
  (pyMod drand_value (max_val - min_val + 1)).map (fun r => r + min_val)

/-- `legacy/server/app/game/__init__.py` result of `DiceGame.derive_rolls_from_drand`. -/
structure RollResult where
  player1_roll : Nat
  player2_roll : Nat
  winner : Nat
  message : String
deriving DecidableEq, Repr

/-- `DiceGame.derive_rolls_from_drand`: two dice rolls from one Drand value,
player 2's roll taken from bits 8.., tie goes to player 1. -/
def derive_rolls_from_drand (drand_value : Nat) : RollResult :=
  let player1_roll := drand_value % 6 + 1
  let player2_roll := (drand_value >>> 8) % 6 + 1
  if player1_roll > player2_roll then
    ⟨player1_roll, player2_roll, 1,
      s!"Player 1 wins with {player1_roll} vs {player2_roll}"⟩
  else if player2_roll > player1_roll then
    ⟨player1_roll, player2_roll, 2,
      s!"Player 2 wins with {player2_roll} vs {player1_roll}"⟩
  else
    ⟨player1_roll, player2_roll, 1,
      s!"Tie! Both rolled {player1_roll}. Player 1 wins on tie."⟩

/-- `legacy/server/app/matching/__init__.py` `PendingPlayer`.  The `amount`
field is a Python float, irrelevant to every claim, so its type is a
parameter; `joined_at` is the `datetime.now()` timestamp. -/
structure PendingPlayer (A : Type) where
  player_address : String
  bet_id : Int
  amount : A
  game_type : String
  joined_at : Nat
deriving DecidableEq

/-- `MatchmakingQueue.add_player`: appends a new `PendingPlayer` to the queue;
`now` is the `datetime.now()` value read inside the method. -/
def add_player {A : Type} (queue : List (PendingPlayer A)) (player_address : String)
    (bet_id : Int) (amount : A) (game_type : String) (now : Nat) :
    List (PendingPlayer A) :=
  queue ++ [⟨player_address, bet_id, amount, game_type, now⟩]

/-- `MatchmakingQueue.find_match`: scans the queue in order, pops and returns
the first player of the requested game type, or returns `None` leaving the
queue unchanged.  The result is the returned player paired with the queue
state after the call. -/
def find_match {A : Type} : List (PendingPlayer A) → String →
    Option (PendingPlayer A) × List (PendingPlayer A)
  | [], _ => (none, [])
  | p :: rest, game_type =>
    if p.game_type == game_type then
      (some p, rest)
    else
      let r := find_match rest game_type
      (r.1, p :: r.2)

/-- ASCII hexadecimal digit, upper or lower case. -/
def isHexDigit (c : Char) : Bool :=
  (('0' ≤ c) && (c ≤ '9')) || (('a' ≤ c) && (c ≤ 'f')) || (('A' ≤ c) && (c ≤ 'F'))

/-- Value of a hexadecimal digit. -/
def hexDigitVal (c : Char) : Nat :=
  if ('0' ≤ c) && (c ≤ '9') then c.toNat - '0'.toNat
  else if ('a' ≤ c) && (c ≤ 'f') then c.toNat - 'a'.toNat + 10
  else c.toNat - 'A'.toNat + 10

/-- Unsigned value of a run of hexadecimal digits. -/
def hexVal (l : List Char) : Nat :=
  l.foldl (fun acc c => acc * 16 + hexDigitVal c) 0

/-- CPython `int(s, 16)` digit run after the first digit: hexadecimal digits
with single underscores allowed between digits (PEP 515), no trailing or
doubled underscore. -/
def parseHexTail : List Char → Nat → Option Nat
  | [], acc => some acc
  | c :: rest, acc =>
    if c = '_' then
      match rest with
      | [] => none
      | c2 :: rest2 =>
        if isHexDigit c2 then parseHexTail rest2 (acc * 16 + hexDigitVal c2)
        else none
    else
      if isHexDigit c then parseHexTail rest (acc * 16 + hexDigitVal c)
      else none

/-- CPython `int(s, 16)` digit run: at least one digit, no leading underscore. -/
def parseHexDigits : List Char → Option Nat
  | [] => none
  | c :: rest => if isHexDigit c then parseHexTail rest (hexDigitVal c) else none

/-- After a `0x`/`0X` prefix CPython allows one underscore before the first
digit (`0x_ff`). -/
def parseHexUnderscore : List Char → Option Nat
  | [] => none
  | c :: rest =>
    if c = '_' then parseHexDigits rest else parseHexDigits (c :: rest)

/-- CPython `int(s, 16)` after the optional sign: an optional `0x`/`0X`
prefix, then the digits. -/
def parseHexBody : List Char → Option Nat
  | c1 :: c2 :: rest =>
    if c1 = '0' ∧ (c2 = 'x' ∨ c2 = 'X') then parseHexUnderscore rest
    else parseHexDigits (c1 :: c2 :: rest)
  | l => parseHexDigits l

/-- CPython `int(s, 16)` after whitespace stripping: optional single sign. -/
def parseSigned : List Char → Option Int
  | [] => none
  | c :: rest =>
    if c = '+' then (parseHexBody rest).map (fun n => (n : Int))
    else if c = '-' then (parseHexBody rest).map (fun n => -(n : Int))
    else (parseHexBody (c :: rest)).map (fun n => (n : Int))

/-- Strip leading and trailing whitespace. -/
def stripWs (l : List Char) : List Char :=
  ((l.dropWhile Char.isWhitespace).reverse.dropWhile Char.isWhitespace).reverse

/-- CPython `int(s, 16)`: optional surrounding whitespace, optional sign,
optional `0x`/`0X` prefix, hexadecimal digits with single underscores between
them; `none` models the `ValueError` raised on anything else. -/
def pyIntHex (s : String) : Option Int :=
  parseSigned (stripWs s.data)

/-- A valid hex string in the sense of the specification: a nonempty run of
hexadecimal digits, with or without a `0x` prefix. -/
def isValidHex (s : String) : Bool :=
  match s.data with
  | c1 :: c2 :: rest =>
    if c1 = '0' ∧ c2 = 'x' then !rest.isEmpty && rest.all isHexDigit
    else (c1 :: c2 :: rest).all isHexDigit
  | l => !l.isEmpty && l.all isHexDigit

/-- The hex digits of a valid hex string (the part after an optional `0x`). -/
def hexDigitsOf (s : String) : List Char :=
  match s.data with
  | c1 :: c2 :: rest => if c1 = '0' ∧ c2 = 'x' then rest else c1 :: c2 :: rest
  | l => l

/-- `demo/verify.py` `DrandVerifier.randomness_to_int`: `int(randomness_hex, 16)`. -/
def DrandVerifier.randomness_to_int (randomness_hex : String) : Option Int :=
  pyIntHex randomness_hex

/-- `legacy/server/app/randomness/__init__.py`
`DrandClientSync.randomness_to_int`: strips a leading `"0x"` if present, then
`int(_, 16)`. -/
def DrandClientSync.randomness_to_int (randomness_hex : String) : Option Int :=
  match randomness_hex.data with
  | c1 :: c2 :: rest =>
    if c1 = '0' ∧ c2 = 'x' then parseSigned (stripWs rest)
    else parseSigned (stripWs (c1 :: c2 :: rest))
  | l => parseSigned (stripWs l)

/-- A stored Drand round in `demo/verify.py`: the dict keys `round`,
`randomness`, `signature` (absent for rounds stored by `add_round`),
`timestamp`, `verified`, `source` (present only for round 17598). -/
structure RoundData where
  round : Nat
  randomness : String
  signature : Option String
  timestamp : Nat
  verified : Bool
  source : Option String
deriving DecidableEq, Repr

/-- A Python dict from round numbers to round data, as an insertion-ordered
association list with unique keys. -/
abbrev RoundTable := List (Nat × RoundData)

/-- Python dict assignment `d[k] = v`: replaces in place if the key exists,
appends otherwise. -/
def dictInsert : RoundTable → Nat → RoundData → RoundTable
  | [], k, v => [(k, v)]
  | (k0, v0) :: rest, k, v =>
    if k0 = k then (k, v) :: rest else (k0, v0) :: dictInsert rest k v

/-- Addresses of Python heap objects. -/
abbrev Addr := Nat

/-- The mutable heap of the `demo/verify.py` module: round dicts by address. -/
def Heap := Addr → RoundTable

/-- The address of the module-level `KNOWN_DRAND_ROUNDS` dict. -/
def KNOWN_DRAND_ROUNDS_addr : Addr := 0

/-- The module-level `KNOWN_DRAND_ROUNDS` table as created at import time. -/
def KNOWN_DRAND_ROUNDS : RoundTable :=
  [(17598,
    ⟨17598,
     "0x2e0a3bbff600011a0ae21c92e8d4c99dda94da06284dfe90032bae3f7ebc6339",
     some "a9cd1e7e6d6cb8822b4be736b8bc1b682ba93c321073ed8c324a87e2091c1d97dd4a48681d9e8e6824fa15c0f8cc471e0515f477aaed546cef4119c7346220399f91c0dedb0208ad5e679b0627630b34d6aa8bc7c400973a2738d40594f4aa60",
     1708643700, true, some "https://drand.love/"⟩),
   (13629,
    ⟨13629,
     "0x8d0a7b3f9c2e1a4f7d5b9c3e8a1f4b7d9c2e5f8a1b4c7d9e0f3a5c7e9f1b",
     some "0x...", 1708643700, true, none⟩),
   (13630,
    ⟨13630,
     "0x2f4e8c1b9a3d7f5e2c6a9b1d4e7f0a3b8c1d4e7f0a3b8c1d4e7f0a3b8c1d",
     some "0x...", 1708643703, true, none⟩)]

/-- The heap at module import: the single `KNOWN_DRAND_ROUNDS` dict. -/
def initialHeap : Heap :=
  fun a => if a = KNOWN_DRAND_ROUNDS_addr then KNOWN_DRAND_ROUNDS else []

/-- A `DrandVerifier` object: its `known_rounds` attribute is a reference to
a round dict on the heap. -/
structure DrandVerifier where
  known_rounds : Addr

/-- `DrandVerifier.__init__`: `self.known_rounds = KNOWN_DRAND_ROUNDS` — the
attribute aliases the module-level dict; no new dict is allocated. -/
def DrandVerifier.init : DrandVerifier :=
  ⟨KNOWN_DRAND_ROUNDS_addr⟩

/-- `DrandVerifier.add_round`: mutates the referenced dict in place;
`timestamp` defaults to the current time `now`.  Returns the updated heap. -/
def DrandVerifier.add_round (v : DrandVerifier) (h : Heap) (round_num : Nat)
    (randomness : String) (timestamp : Option Nat) (now : Nat) : Heap :=
  let ts := timestamp.getD now
  fun a =>
    if a = v.known_rounds then
      dictInsert (h v.known_rounds) round_num
        ⟨round_num, randomness, none, ts, true, none⟩
    else h a

/-- `DrandVerifier.get_round`: dict lookup in the referenced table, `None`
when the round is absent. -/
def DrandVerifier.get_round (v : DrandVerifier) (h : Heap) (round_num : Nat) :
    Option RoundData :=
  (h v.known_rounds).lookup round_num

/-- The dict returned by `DrandVerifier.verify_game`; keys absent in one of
the two result shapes are `Option`s. -/
structure VerificationResult where
  valid : Bool
  round : Option Nat
  randomness : Option String
  error : Option String
  claimed_outcome : Int
  actual_outcome : Option Int
  timestamp : Option Nat
  explanation : Option String
deriving DecidableEq, Repr

/-- `DrandVerifier.verify_game`: looks the round up, reports `valid = False`
with an error message when it is missing, otherwise recomputes the outcome
and compares it to the claimed one.  `none` models an uncaught exception
(impossible for well-formed stored rounds). -/
def DrandVerifier.verify_game (v : DrandVerifier) (h : Heap) (round_num : Nat)
    (claimed_outcome : Int) (min_val max_val : Int) :
    Option VerificationResult :=
  match v.get_round h round_num with
  | none =>
    some ⟨false, none, none,
      some s!"Round {round_num} not found in local database",
      claimed_outcome, none, none, none⟩
  | some round_data =>
    match DrandVerifier.randomness_to_int round_data.randomness with
    | none => none
    | some drand_int =>
      match calculate_outcome drand_int min_val max_val with
      | none => none
      | some actual_outcome =>
        some ⟨actual_outcome == claimed_outcome, some round_num,
          some round_data.randomness, none, claimed_outcome,
          some actual_outcome, some round_data.timestamp,
          some s!"({drand_int} % {max_val - min_val + 1}) + {min_val} = {actual_outcome}"⟩

/-- Lower-case hex character of a digit value. -/
def hexCharOfNat (n : Nat) : Char :=
  if n < 10 then Char.ofNat ('0'.toNat + n) else Char.ofNat ('a'.toNat + n - 10)

/-- Python `bytes.hex()`: two lower-case hex characters per byte. -/
def bytesToHex (bs : List Nat) : String :=
  ⟨bs.foldr (fun b acc => hexCharOfNat (b / 16) :: hexCharOfNat (b % 16) :: acc) []⟩

/-- Pairs of hex digits to bytes; `none` on a stray digit or non-hex char. -/
def parseHexPairs : List Char → Option (List Nat)
  | [] => some []
  | [_] => none
  | c1 :: c2 :: rest =>
    if isHexDigit c1 && isHexDigit c2 then
      (parseHexPairs rest).map (fun bs => (hexDigitVal c1 * 16 + hexDigitVal c2) :: bs)
    else none

/-- Python `bytes.fromhex`: ignores ASCII whitespace, then needs an even run
of hex digits; `none` models the `ValueError` raised otherwise. -/
def bytesFromHex (s : String) : Option (List Nat) :=
  parseHexPairs (s.data.filter (fun c => !c.isWhitespace))

/-- `protocol/seed.py` `SeedManager`: `_seeds` maps a seat to the raw seed
bytes and the published commitment (the hex digest of the hash). -/
structure SeedManager where
  seeds : List (String × (List Nat × String))

/-- `SeedManager.create_seed`, with the `secrets.token_bytes(32)` draw passed
in as `raw` and the `hashlib.sha256(...).hexdigest()` black box as `H`.
Returns the Python result (`ValueError` on a duplicate seat) together with
the store state after the call; the raise happens before any mutation, so on
error the state is returned unchanged. -/
def SeedManager.create_seed (H : List Nat → String) (m : SeedManager)
    (seat : String) (raw : List Nat) : Except String String × SeedManager :=
  if (m.seeds.lookup seat).isSome then
    (Except.error s!"seed already exists for seat {seat}", m)
  else
    (Except.ok (H raw), ⟨m.seeds ++ [(seat, (raw, H raw))]⟩)

/-- `SeedManager.reveal_seed`: the hex-encoded stored seed, `KeyError` when
the seat is unknown.  Read-only. -/
def SeedManager.reveal_seed (m : SeedManager) (seat : String) :
    Except String String :=
  match m.seeds.lookup seat with
  | none => Except.error s!"no seed stored for seat {seat}"
  | some (raw, _) => Except.ok (bytesToHex raw)

/-- `SeedManager.verify_commitment`: `False` for an unknown seat, otherwise
compares `H(bytes.fromhex(seed_hex))` with the stored commitment; `none`
models the `ValueError` that `bytes.fromhex` raises on a malformed hex
string. -/
def SeedManager.verify_commitment (H : List Nat → String) (m : SeedManager)
    (seat seed_hex : String) : Option Bool :=
  match m.seeds.lookup seat with
  | none => some false
  | some (_, commitment) =>
    match bytesFromHex seed_hex with
    | none => none
    | some bs => some (H bs == commitment)

/-- C1: for `min ≤ max` and a non-negative random value, `calculate_outcome`
returns `(randomValue mod (max - min + 1)) + min`, a value in `[min, max]`
inclusive; being a Lean function, it is pure: identical inputs give identical
outputs. -/
theorem calculate_outcome_formula_and_range (r mn mx : Int)
    (hle : mn ≤ mx) (hr : 0 ≤ r) :
    calculate_outcome r mn mx = some (r % (mx - mn + 1) + mn) ∧
    mn ≤ r % (mx - mn + 1) + mn ∧ r % (mx - mn + 1) + mn ≤ mx := by
  have hbpos : (0 : Int) < mx - mn + 1 := by omega
  have hbne : mx - mn + 1 ≠ 0 := by omega
  constructor
  · simp only [calculate_outcome, pyMod, if_neg hbne,
      Int.fmod_eq_emod _ (Int.le_of_lt hbpos), Option.map_some']
  · have h1 : 0 ≤ r % (mx - mn + 1) := Int.emod_nonneg r hbne
    have h2 : r % (mx - mn + 1) < mx - mn + 1 := Int.emod_lt_of_pos r hbpos
    omega

/-- Witness for C1 at `randomValue = 10`, range `[1, 6]`: outcome `5`. -/
theorem calculate_outcome_formula_and_range_witness :
    calculate_outcome 10 1 6 = some ((10 : Int) % 6 + 1) ∧
    (1 : Int) ≤ (10 : Int) % 6 + 1 ∧ (10 : Int) % 6 + 1 ≤ 6 :=
  calculate_outcome_formula_and_range 10 1 6 (by decide) (by decide)

/-- C4 counterexample: with `min = 10 > max = 5` the code performs no range
check at all: `calculate_outcome(5, 10, 5)` returns the value `7`
(`5 % (-4) = -3` in Python, `-3 + 10 = 7`) instead of failing with
`InvalidRange`. -/
theorem calculate_outcome_no_range_check :
    (5 : Int) < 10 ∧ calculate_outcome 5 10 5 = some 7 := by decide

/-- C4 amended: for `max < min`, `calculate_outcome` does not fail with
`InvalidRange`; when `max = min - 1` it fails with a `ZeroDivisionError`
(the range size is `0`), and when `max < min - 1` it returns
`(randomValue fmod (max - min + 1)) + min` without failing. -/
theorem calculate_outcome_max_lt_min (r mn mx : Int) (h : mx < mn) :
    (mx = mn - 1 → calculate_outcome r mn mx = none) ∧
    (mx < mn - 1 → calculate_outcome r mn mx =
      some (Int.fmod r (mx - mn + 1) + mn)) := by
  constructor
  · intro heq
    have hz : mx - mn + 1 = 0 := by omega
    simp [calculate_outcome, pyMod, hz]
  · intro hlt
    have hnz : mx - mn + 1 ≠ 0 := by omega
    simp [calculate_outcome, pyMod, hnz]

/-- Witness for the amended C4 at `randomValue = 5`, `min = 10`, `max = 5`. -/
theorem calculate_outcome_max_lt_min_witness :
    ((5 : Int) = 10 - 1 → calculate_outcome 5 10 5 = none) ∧
    ((5 : Int) < 10 - 1 → calculate_outcome 5 10 5 =
      some (Int.fmod 5 ((5 : Int) - 10 + 1) + 10)) :=
  calculate_outcome_max_lt_min 5 10 5 (by decide)

/-- C2: for every 256-bit random value, `derive_rolls_from_drand` gives
`rollA = (randomValue mod 6) + 1`, `rollB = ((randomValue >> 8) mod 6) + 1`,
both in `[1, 6]`, a winner in `{1, 2}`, and winner `1` (player A) whenever
`rollA ≥ rollB` (ties go to player 1). -/
theorem derive_rolls_bounds (r : Nat) (h : r < 2 ^ 256) :
    (derive_rolls_from_drand r).player1_roll = r % 6 + 1 ∧
    (derive_rolls_from_drand r).player2_roll = (r >>> 8) % 6 + 1 ∧
    1 ≤ (derive_rolls_from_drand r).player1_roll ∧
    (derive_rolls_from_drand r).player1_roll ≤ 6 ∧
    1 ≤ (derive_rolls_from_drand r).player2_roll ∧
    (derive_rolls_from_drand r).player2_roll ≤ 6 ∧
    ((derive_rolls_from_drand r).winner = 1 ∨
      (derive_rolls_from_drand r).winner = 2) ∧
    ((derive_rolls_from_drand r).player2_roll ≤
        (derive_rolls_from_drand r).player1_roll →
      (derive_rolls_from_drand r).winner = 1) := by
  have h1 : r % 6 < 6 := Nat.mod_lt _ (by omega)
  have h2 : (r >>> 8) % 6 < 6 := Nat.mod_lt _ (by omega)
  simp only [derive_rolls_from_drand]
  split
  · dsimp only
    exact ⟨rfl, rfl, by omega, by omega, by omega, by omega, Or.inl rfl,
      fun _ => rfl⟩
  · split
    · rename_i hng hgt
      dsimp only
      refine ⟨rfl, rfl, by omega, by omega, by omega, by omega, Or.inr rfl,
        fun hle => ?_⟩
      omega
    · dsimp only
      exact ⟨rfl, rfl, by omega, by omega, by omega, by omega, Or.inl rfl,
        fun _ => rfl⟩

/-- Witness for C2 at `randomValue = 300`: rolls `1` and `2`, winner `2`. -/
theorem derive_rolls_bounds_witness :
    (derive_rolls_from_drand 300).player1_roll = 300 % 6 + 1 ∧
    (derive_rolls_from_drand 300).player2_roll = (300 >>> 8) % 6 + 1 ∧
    1 ≤ (derive_rolls_from_drand 300).player1_roll ∧
    (derive_rolls_from_drand 300).player1_roll ≤ 6 ∧
    1 ≤ (derive_rolls_from_drand 300).player2_roll ∧
    (derive_rolls_from_drand 300).player2_roll ≤ 6 ∧
    ((derive_rolls_from_drand 300).winner = 1 ∨
      (derive_rolls_from_drand 300).winner = 2) ∧
    ((derive_rolls_from_drand 300).player2_roll ≤
        (derive_rolls_from_drand 300).player1_roll →
      (derive_rolls_from_drand 300).winner = 1) :=
  derive_rolls_bounds 300 (by norm_num)

/-- C9: `find_match` returns exactly the first queue entry (that is, the
earliest-enqueued, since `add_player` appends) whose `game_type` matches, and
the post-state is the queue with exactly that entry removed; when no entry of
the class is waiting it returns `None` and leaves the queue unchanged. -/
theorem find_match_fifo {A : Type} (q : List (PendingPlayer A)) (gc : String) :
    (find_match q gc).1 = q.find? (fun p => p.game_type == gc) ∧
    (find_match q gc).2 = q.eraseP (fun p => p.game_type == gc) ∧
    (q.find? (fun p => p.game_type == gc) = none →
      find_match q gc = (none, q)) := by
  induction q with
  | nil => exact ⟨rfl, rfl, fun _ => rfl⟩
  | cons p rest ih =>
    obtain ⟨ih1, ih2, ih3⟩ := ih
    by_cases hp : (p.game_type == gc) = true
    · refine ⟨?_, ?_, ?_⟩
      · simp [find_match, hp, List.find?_cons]
      · simp [find_match, hp, List.eraseP_cons]
      · intro hn
        simp [List.find?_cons, hp] at hn
    · have hp2 : (p.game_type == gc) = false := by
        simpa using hp
      refine ⟨?_, ?_, ?_⟩
      · simp [find_match, hp2, List.find?_cons, ih1]
      · simp [find_match, hp2, List.eraseP_cons, ih2]
      · intro hn
        simp only [List.find?_cons, hp2] at hn
        have h4 := ih3 hn
        simp [find_match, hp2, h4]

/-- Witness for C9 on a concrete three-player queue asking for class dice. -/
theorem find_match_fifo_witness :
    (find_match [(⟨"a", 1, (), "coin", 0⟩ : PendingPlayer Unit),
        ⟨"b", 2, (), "dice", 1⟩, ⟨"c", 3, (), "dice", 2⟩] "dice").1 =
      List.find? (fun p => p.game_type == "dice")
        [(⟨"a", 1, (), "coin", 0⟩ : PendingPlayer Unit),
          ⟨"b", 2, (), "dice", 1⟩, ⟨"c", 3, (), "dice", 2⟩] ∧
    (find_match [(⟨"a", 1, (), "coin", 0⟩ : PendingPlayer Unit),
        ⟨"b", 2, (), "dice", 1⟩, ⟨"c", 3, (), "dice", 2⟩] "dice").2 =
      List.eraseP (fun p => p.game_type == "dice")
        [(⟨"a", 1, (), "coin", 0⟩ : PendingPlayer Unit),
          ⟨"b", 2, (), "dice", 1⟩, ⟨"c", 3, (), "dice", 2⟩] ∧
    (List.find? (fun p => p.game_type == "dice")
        [(⟨"a", 1, (), "coin", 0⟩ : PendingPlayer Unit),
          ⟨"b", 2, (), "dice", 1⟩, ⟨"c", 3, (), "dice", 2⟩] = none →
      find_match [(⟨"a", 1, (), "coin", 0⟩ : PendingPlayer Unit),
        ⟨"b", 2, (), "dice", 1⟩, ⟨"c", 3, (), "dice", 2⟩] "dice" =
        (none, [(⟨"a", 1, (), "coin", 0⟩ : PendingPlayer Unit),
          ⟨"b", 2, (), "dice", 1⟩, ⟨"c", 3, (), "dice", 2⟩])) :=
  find_match_fifo
    [(⟨"a", 1, (), "coin", 0⟩ : PendingPlayer Unit),
      ⟨"b", 2, (), "dice", 1⟩, ⟨"c", 3, (), "dice", 2⟩] "dice"

/-- C3: the stored beacon round 17598 with the real randomness hex derives
outcome 2 on range `[1, 6]`; `verify_game(17598, 2, 1, 6)` is valid and
`verify_game(17598, 3, 1, 6)` is invalid with actual outcome 2. -/
theorem verify_game_round_17598 :
    ((DrandVerifier.randomness_to_int
        "0x2e0a3bbff600011a0ae21c92e8d4c99dda94da06284dfe90032bae3f7ebc6339").bind
      (fun v => calculate_outcome v 1 6)) = some 2 ∧
    (DrandVerifier.init.verify_game initialHeap 17598 2 1 6).map
      (fun res => (res.valid, res.actual_outcome)) = some (true, some 2) ∧
    (DrandVerifier.init.verify_game initialHeap 17598 3 1 6).map
      (fun res => (res.valid, res.actual_outcome)) = some (false, some 2) := by
  decide

/-- A hexadecimal digit is not whitespace. -/
theorem isHexDigit_not_ws {c : Char} (h : isHexDigit c = true) :
    c.isWhitespace = false := by
  by_contra hws
  rw [Bool.not_eq_false] at hws
  have h32 : c = ' ' ∨ c = '\t' ∨ c = '\r' ∨ c = '\n' := by
    simpa [Char.isWhitespace, or_assoc] using hws
  rcases h32 with h1 | h1 | h1 | h1 <;> subst h1 <;> revert h <;> decide

/-- `dropWhile` is the identity when no element satisfies the predicate. -/
theorem dropWhile_eq_self_of_false {p : Char → Bool} :
    ∀ l : List Char, (∀ c ∈ l, p c = false) → l.dropWhile p = l := by
  intro l h
  cases l with
  | nil => rfl
  | cons c rest => simp [List.dropWhile_cons, h c (by simp)]

/-- Whitespace stripping is the identity on whitespace-free strings. -/
theorem stripWs_eq_self {l : List Char} (h : ∀ c ∈ l, c.isWhitespace = false) :
    stripWs l = l := by
  unfold stripWs
  rw [dropWhile_eq_self_of_false l h,
    dropWhile_eq_self_of_false l.reverse (fun c hc => h c (List.mem_reverse.mp hc)),
    List.reverse_reverse]

/-- All characters of an all-hex run are whitespace-free. -/
theorem all_hex_no_ws {l : List Char} (hall : l.all isHexDigit = true) :
    ∀ c ∈ l, c.isWhitespace = false := by
  intro c hc
  rw [List.all_eq_true] at hall
  exact isHexDigit_not_ws (hall c hc)

/-- `parseHexTail` consumes a pure digit run completely. -/
theorem parseHexTail_all_hex :
    ∀ (l : List Char) (acc : Nat), l.all isHexDigit = true →
      parseHexTail l acc =
        some (l.foldl (fun a c => a * 16 + hexDigitVal c) acc) := by
  intro l
  induction l with
  | nil => intro acc _; rfl
  | cons c rest ih =>
    intro acc hall
    simp only [List.all_cons, Bool.and_eq_true] at hall
    have hc : isHexDigit c = true := hall.1
    have hne : c ≠ '_' := by intro he; subst he; revert hc; decide
    unfold parseHexTail
    rw [if_neg hne, if_pos hc, List.foldl_cons]
    exact ih _ hall.2

/-- `parseHexDigits` on a nonempty pure digit run returns its value. -/
theorem parseHexDigits_all_hex {l : List Char} (hne : l ≠ [])
    (hall : l.all isHexDigit = true) : parseHexDigits l = some (hexVal l) := by
  cases l with
  | nil => exact absurd rfl hne
  | cons c rest =>
    simp only [List.all_cons, Bool.and_eq_true] at hall
    simp [parseHexDigits, hall.1, parseHexTail_all_hex rest (hexDigitVal c) hall.2,
      hexVal, List.foldl_cons]

/-- `parseHexUnderscore` on a nonempty pure digit run returns its value. -/
theorem parseHexUnderscore_all_hex {l : List Char} (hne : l ≠ [])
    (hall : l.all isHexDigit = true) :
    parseHexUnderscore l = some (hexVal l) := by
  cases l with
  | nil => exact absurd rfl hne
  | cons c rest =>
    have hc : isHexDigit c = true := by
      simp only [List.all_cons, Bool.and_eq_true] at hall; exact hall.1
    have hu : c ≠ '_' := by intro he; subst he; revert hc; decide
    simp [parseHexUnderscore, hu, parseHexDigits_all_hex (by simp) hall]

/-- `parseHexBody` on a nonempty pure digit run returns its value. -/
theorem parseHexBody_all_hex {l : List Char} (hne : l ≠ [])
    (hall : l.all isHexDigit = true) : parseHexBody l = some (hexVal l) := by
  rcases l with _ | ⟨c1, _ | ⟨c2, rest⟩⟩
  · exact absurd rfl hne
  · simp [parseHexBody, parseHexDigits_all_hex hne hall]
  · have h2 : isHexDigit c2 = true := by
      simp only [List.all_cons, Bool.and_eq_true] at hall
      exact hall.2.1
    have hx : ¬(c1 = '0' ∧ (c2 = 'x' ∨ c2 = 'X')) := by
      rintro ⟨-, h | h⟩ <;> subst h <;> revert h2 <;> decide
    simp [parseHexBody, hx, parseHexDigits_all_hex hne hall]

/-- `parseSigned` on a nonempty pure digit run returns its value. -/
theorem parseSigned_all_hex {l : List Char} (hne : l ≠ [])
    (hall : l.all isHexDigit = true) :
    parseSigned l = some ((hexVal l : Nat) : Int) := by
  cases l with
  | nil => exact absurd rfl hne
  | cons c rest =>
    have hc : isHexDigit c = true := by
      simp only [List.all_cons, Bool.and_eq_true] at hall; exact hall.1
    have hplus : c ≠ '+' := by intro he; subst he; revert hc; decide
    have hminus : c ≠ '-' := by intro he; subst he; revert hc; decide
    simp [parseSigned, hplus, hminus, parseHexBody_all_hex (by simp) hall]

/-- C5 amended: both `randomness_to_int` implementations are deterministic
and total over all valid hex strings (with or without a `0x` prefix),
returning the unsigned value of the hex digits — but success is not
equivalent to valid hex, since CPython's `int(s, 16)` also accepts signed,
whitespace-padded and underscore-grouped forms. -/
theorem randomness_to_int_valid_hex (s : String) (h : isValidHex s = true) :
    DrandVerifier.randomness_to_int s = some ((hexVal (hexDigitsOf s) : Nat) : Int) ∧
    DrandClientSync.randomness_to_int s = some ((hexVal (hexDigitsOf s) : Nat) : Int) := by
  obtain ⟨l⟩ := s
  simp only [isValidHex] at h
  simp only [DrandVerifier.randomness_to_int, DrandClientSync.randomness_to_int,
    pyIntHex, hexDigitsOf]
  rcases l with _ | ⟨c1, _ | ⟨c2, rest⟩⟩
  · simp at h
  · dsimp only at h ⊢
    simp only [List.isEmpty_cons, Bool.not_false, Bool.true_and] at h
    rw [stripWs_eq_self (all_hex_no_ws h)]
    exact ⟨parseSigned_all_hex (by simp) h, parseSigned_all_hex (by simp) h⟩
  · dsimp only at h ⊢
    by_cases hpre : c1 = '0' ∧ c2 = 'x'
    · obtain ⟨h0, hx⟩ := hpre
      subst h0; subst hx
      rw [if_pos ⟨rfl, rfl⟩, Bool.and_eq_true] at h
      obtain ⟨hne0, hrall⟩ := h
      have hrne : rest ≠ [] := by intro he; subst he; simp at hne0
      have hnows : ∀ c ∈ '0' :: 'x' :: rest, c.isWhitespace = false := by
        intro c hc
        simp only [List.mem_cons] at hc
        rcases hc with rfl | rfl | hc
        · decide
        · decide
        · exact all_hex_no_ws hrall c hc
      simp only [eq_self_iff_true, and_self, if_true]
      rw [stripWs_eq_self hnows, stripWs_eq_self (all_hex_no_ws hrall)]
      refine ⟨?_, parseSigned_all_hex hrne hrall⟩
      simp [parseSigned, parseHexBody, parseHexUnderscore_all_hex hrne hrall]
    · rw [if_neg hpre] at h
      simp only [if_neg hpre]
      rw [stripWs_eq_self (all_hex_no_ws h)]
      exact ⟨parseSigned_all_hex (by simp) h, parseSigned_all_hex (by simp) h⟩

/-- Witness for the amended C5 on the valid hex string `0xab`, value 171. -/
theorem randomness_to_int_valid_hex_witness :
    DrandVerifier.randomness_to_int "0xab" =
      some ((hexVal (hexDigitsOf "0xab") : Nat) : Int) ∧
    DrandClientSync.randomness_to_int "0xab" =
      some ((hexVal (hexDigitsOf "0xab") : Nat) : Int) :=
  randomness_to_int_valid_hex "0xab" (by decide)

/-- C5 counterexample: the string `-f` is not valid hex, yet both
`randomness_to_int` implementations succeed on it — returning `-15`, not
even an unsigned value — so "succeeds iff the input is valid hex" fails. -/
theorem randomness_to_int_accepts_sign :
    isValidHex "-f" = false ∧
    DrandVerifier.randomness_to_int "-f" = some (-15) ∧
    DrandClientSync.randomness_to_int "-f" = some (-15) := by decide

/-- Looking up the inserted key after a Python dict assignment. -/
theorem lookup_dictInsert (t : RoundTable) (k : Nat) (v : RoundData) :
    (dictInsert t k v).lookup k = some v := by
  induction t with
  | nil => simp [dictInsert, List.lookup]
  | cons p rest ih =>
    obtain ⟨k0, v0⟩ := p
    by_cases hk : k0 = k
    · subst hk; simp [dictInsert, List.lookup]
    · have hk2 : (k == k0) = false := by
        simp [Ne.symm hk]
      simp [dictInsert, hk, List.lookup, hk2, ih]

/-- C10: `DrandVerifier.__init__` does not allocate a fresh cache — every
instance's `known_rounds` is the address of the one module-level
`KNOWN_DRAND_ROUNDS` dict, which already stores rounds 17598, 13629 and
13630 at construction; a round added through one instance is returned by
`get_round` of any instance, as all of them read the same dict. -/
theorem drand_verifier_shared_cache (h : Heap) (n : Nat) (r : String)
    (ts : Option Nat) (now : Nat) :
    DrandVerifier.init.known_rounds = KNOWN_DRAND_ROUNDS_addr ∧
    initialHeap KNOWN_DRAND_ROUNDS_addr = KNOWN_DRAND_ROUNDS ∧
    (DrandVerifier.init.get_round initialHeap 17598).isSome = true ∧
    (DrandVerifier.init.get_round initialHeap 13629).isSome = true ∧
    (DrandVerifier.init.get_round initialHeap 13630).isSome = true ∧
    DrandVerifier.init.get_round
      (DrandVerifier.init.add_round h n r ts now) n =
      some ⟨n, r, none, ts.getD now, true, none⟩ := by
  refine ⟨rfl, rfl, by decide, by decide, by decide, ?_⟩
  simp only [DrandVerifier.get_round, DrandVerifier.add_round, if_pos rfl]
  exact lookup_dictInsert _ _ _

/-- Hex characters produced by `bytesToHex` are digits with the right value
and are not whitespace. -/
theorem hexCharOfNat_spec :
    ∀ d < 16, isHexDigit (hexCharOfNat d) = true ∧
      hexDigitVal (hexCharOfNat d) = d ∧
      (hexCharOfNat d).isWhitespace = false := by decide

/-- `bytes.fromhex` inverts `bytes.hex()` on genuine byte lists. -/
theorem bytesFromHex_bytesToHex :
    ∀ bs : List Nat, (∀ b ∈ bs, b < 256) →
      bytesFromHex (bytesToHex bs) = some bs := by
  intro bs
  unfold bytesFromHex bytesToHex
  dsimp only
  induction bs with
  | nil => intro _; rfl
  | cons b rest ih =>
    intro h
    obtain ⟨hhex1, hval1, hws1⟩ := hexCharOfNat_spec (b / 16) (by
      have := h b (List.mem_cons_self _ _); omega)
    obtain ⟨hhex2, hval2, hws2⟩ := hexCharOfNat_spec (b % 16) (by
      have := h b (List.mem_cons_self _ _); omega)
    have ih2 := ih (fun x hx => h x (List.mem_cons_of_mem _ hx))
    dsimp only [List.foldr_cons]
    simp only [List.filter_cons, hws1, hws2, Bool.not_false, if_true]
    unfold parseHexPairs
    rw [if_pos (by simp [hhex1, hhex2]), ih2]
    have hb2 : hexDigitVal (hexCharOfNat (b / 16)) * 16 +
        hexDigitVal (hexCharOfNat (b % 16)) = b := by
      rw [hval1, hval2]; omega
    simp [hb2]

/-- Appending does not disturb a failed association-list lookup. -/
theorem lookup_append_of_none {β : Type} (l1 l2 : List (String × β))
    (k : String) (h : l1.lookup k = none) :
    (l1 ++ l2).lookup k = l2.lookup k := by
  induction l1 with
  | nil => rfl
  | cons p rest ih =>
    obtain ⟨k0, v0⟩ := p
    by_cases hk : (k == k0) = true
    · simp [List.lookup, hk] at h
    · have hk2 : (k == k0) = false := by
        simpa using hk
      simp only [List.lookup, hk2, List.cons_append] at h ⊢
      exact ih h

/-- C6: on a free slot, `create_seed` then `reveal_seed` then
`verify_commitment` with the revealed hex seed returns `True`, for any hash
function `H` and any byte draw `raw`. -/
theorem commit_reveal_roundtrip (H : List Nat → String) (m : SeedManager)
    (seat : String) (raw : List Nat)
    (hfree : m.seeds.lookup seat = none) (hbytes : ∀ b ∈ raw, b < 256) :
    (SeedManager.create_seed H m seat raw).1 = Except.ok (H raw) ∧
    (SeedManager.create_seed H m seat raw).2.reveal_seed seat =
      Except.ok (bytesToHex raw) ∧
    SeedManager.verify_commitment H (SeedManager.create_seed H m seat raw).2
      seat (bytesToHex raw) = some true := by
  have hstep : SeedManager.create_seed H m seat raw =
      (Except.ok (H raw), ⟨m.seeds ++ [(seat, (raw, H raw))]⟩) := by
    unfold SeedManager.create_seed
    rw [hfree]
    rfl
  rw [hstep]
  have hlook : (m.seeds ++ [(seat, (raw, H raw))]).lookup seat =
      some (raw, H raw) := by
    rw [lookup_append_of_none _ _ _ hfree]
    simp [List.lookup]
  refine ⟨rfl, ?_, ?_⟩
  · unfold SeedManager.reveal_seed
    rw [hlook]
  · unfold SeedManager.verify_commitment
    rw [hlook, bytesFromHex_bytesToHex raw hbytes]
    simp

/-- Witness for C6: constant hash, empty store, seat `A`, one byte `7`. -/
theorem commit_reveal_roundtrip_witness :
    (SeedManager.create_seed (fun _ => "h") ⟨[]⟩ "A" [7]).1 =
      Except.ok "h" ∧
    (SeedManager.create_seed (fun _ => "h") ⟨[]⟩ "A" [7]).2.reveal_seed "A" =
      Except.ok (bytesToHex [7]) ∧
    SeedManager.verify_commitment (fun _ => "h")
      (SeedManager.create_seed (fun _ => "h") ⟨[]⟩ "A" [7]).2 "A"
      (bytesToHex [7]) = some true :=
  commit_reveal_roundtrip (fun _ => "h") ⟨[]⟩ "A" [7] rfl (by decide)

/-- C7 amended: `verify_commitment` returns `False` (without raising) for an
unknown slot and returns a Boolean — `False` on mismatch — whenever the seed
string is well-formed hex; but for a known slot with a malformed seed string
the `bytes.fromhex` call raises, so it is not total over all strings. -/
theorem verify_commitment_no_raise (H : List Nat → String) (m : SeedManager)
    (seat seed_hex : String) :
    (m.seeds.lookup seat = none →
      SeedManager.verify_commitment H m seat seed_hex = some false) ∧
    (∀ bs, bytesFromHex seed_hex = some bs →
      ∃ b : Bool, SeedManager.verify_commitment H m seat seed_hex = some b) ∧
    (∀ raw commitment bs, m.seeds.lookup seat = some (raw, commitment) →
      bytesFromHex seed_hex = some bs → H bs ≠ commitment →
      SeedManager.verify_commitment H m seat seed_hex = some false) := by
  unfold SeedManager.verify_commitment
  refine ⟨fun hn => by rw [hn], ?_, ?_⟩
  · intro bs hbs
    cases hm : m.seeds.lookup seat with
    | none => exact ⟨false, rfl⟩
    | some e =>
      obtain ⟨raw, commitment⟩ := e
      exact ⟨H bs == commitment, by rw [hbs]⟩
  · intro raw commitment bs hm hbs hne
    rw [hm, hbs]
    simp [hne]

/-- Witness for the amended C7: empty store, unknown slot returns `False`. -/
theorem verify_commitment_no_raise_witness :
    SeedManager.verify_commitment (fun _ => "c") ⟨[]⟩ "A" "ab" = some false :=
  (verify_commitment_no_raise (fun _ => "c") ⟨[]⟩ "A" "ab").1 rfl

/-- C7 counterexample: with a commitment stored for slot `A`, verifying the
non-hex seed string `zz` raises (`ValueError` from `bytes.fromhex`) instead
of returning a Boolean. -/
theorem verify_commitment_raises_on_nonhex :
    SeedManager.verify_commitment (fun _ => "c") ⟨[("A", ([], "c"))]⟩ "A" "zz"
      = none := by decide

/-- C8: `create_seed` on a slot that already has a commitment fails (the
duplicate-slot `ValueError`) and leaves the store exactly as it was. -/
theorem create_seed_duplicate (H : List Nat → String) (m : SeedManager)
    (seat : String) (raw : List Nat)
    (hdup : (m.seeds.lookup seat).isSome = true) :
    (SeedManager.create_seed H m seat raw).1 =
      Except.error s!"seed already exists for seat {seat}" ∧
    (SeedManager.create_seed H m seat raw).2 = m := by
  unfold SeedManager.create_seed
  rw [if_pos hdup]
  exact ⟨rfl, rfl⟩

/-- Witness for C8: store with slot `A` committed, duplicate call fails and
preserves the state. -/
theorem create_seed_duplicate_witness :
    (SeedManager.create_seed (fun _ => "c") ⟨[("A", ([], "c"))]⟩ "A" []).1 =
      Except.error "seed already exists for seat A" ∧
    (SeedManager.create_seed (fun _ => "c") ⟨[("A", ([], "c"))]⟩ "A" []).2 =
      ⟨[("A", ([], "c"))]⟩ :=
  create_seed_duplicate (fun _ => "c") ⟨[("A", ([], "c"))]⟩ "A" [] rfl
